import Mathlib

/-!
Verification of the ednotes offline-first notes application.

The embedding follows the TypeScript source:
* `Note` is the remote (Postgres) row of `src/lib/db/schema.ts` (`notes` table:
  id, title, content, created_at, updated_at, all NOT NULL).
* The API route handlers of `src/app/api/notes/route.ts` and
  `src/app/api/notes/[id]/route.ts` become total Lean functions over an
  explicit store `List Note`; the Postgres call that may throw is modelled
  by a `dbFail : Bool` injection, and every handler's `try/catch` becomes
  the branch mapping the failure to the handler's JSON error response.
  Timestamps become `Nat` (ISO date strings compare chronologically).
* The client page `src/app/page.tsx` contributes `saveRequestBody`,
  `saveNote`, `handleDelete` and the trailing-edge debounce of
  `debouncedSave` (a single `setTimeout` slot, cleared and re-armed on
  every call, window 1000 ms).
* `LocalNote` is the Dexie record declared in `src/lib/db/local-db.ts`
  (`synced : 0|1`, `isDeleted : 0|1`, here `Bool` with `true = 1`, so
  `synced = true` is Clean and `isDeleted = true` is Tombstoned).
-/

namespace EdNotes

/-- Remote note row (drizzle schema `notes` in `src/lib/db/schema.ts`). -/
structure Note where
  id : String
  title : String
  content : String
  createdAt : Nat
  updatedAt : Nat
deriving DecidableEq, Repr

/-- JavaScript `x || d` on an optional string field of a JSON body:
both a missing field (`none`) and the empty string are falsy. -/
def jsOrStr : Option String → String → String
  | none, d => d
  | some s, d => if s = "" then d else s

/-- JavaScript `x ? x : d` on an optional numeric timestamp: a missing
field and `0` are falsy. -/
def jsOrNat : Option Nat → Nat → Nat
  | none, d => d
  | some v, d => if v = 0 then d else v

/-- Payload of a `NextResponse.json(...)` as the handlers build them. -/
inductive Body where
  | notesList (l : List Note)
  | note (n : Note)
  | okMsg (s : String)
  | errMsg (s : String)
deriving DecidableEq, Repr

/-- An HTTP response: status code and JSON body. -/
structure Response where
  status : Nat
  body : Body
deriving DecidableEq, Repr

/-- `NextResponse.json({ error: msg }, { status })`. -/
def jsonError (msg : String) (status : Nat) : Response :=
  ⟨status, .errMsg msg⟩

/-- `ORDER BY updated_at DESC`: the row `a` may precede `b` when
`b.updatedAt ≤ a.updatedAt`. -/
def byUpdatedDesc (a b : Note) : Prop :=
  b.updatedAt ≤ a.updatedAt

instance : DecidableRel byUpdatedDesc :=
  fun a b => Nat.decLe b.updatedAt a.updatedAt

instance : IsTotal Note byUpdatedDesc :=
  ⟨fun a b => Nat.le_total b.updatedAt a.updatedAt⟩

instance : IsTrans Note byUpdatedDesc :=
  ⟨fun _ _ _ hab hbc => Nat.le_trans hbc hab⟩

/-- `GET /api/notes` (`src/app/api/notes/route.ts`): select all rows
ordered by `updatedAt` descending; any thrown error is caught and
answered with the 500 payload. -/
def notesGETall (dbFail : Bool) (s : List Note) : Response :=
  if dbFail then jsonError "Failed to fetch notes" 500
  else ⟨200, .notesList (List.insertionSort byUpdatedDesc s)⟩

/-- `POST /api/notes` (`src/app/api/notes/route.ts`): insert a new row
with `title || 'Untitled'`, `content || ''`; id, createdAt and updatedAt
come from the column defaults (`freshId` is the `defaultRandom` uuid,
`now` the `defaultNow` timestamp). A primary-key collision throws and is
caught as the 500 payload. -/
def POSTnotes (dbFail : Bool) (title content : Option String)
    (freshId : String) (now : Nat) (s : List Note) : Response × List Note :=
  if dbFail then (jsonError "Failed to create note" 500, s)
  else
    let n : Note := ⟨freshId, jsOrStr title "Untitled", jsOrStr content "", now, now⟩
    if s.any (fun m => m.id == n.id) then (jsonError "Failed to create note" 500, s)
    else (⟨200, .note n⟩, s ++ [n])

/-- `POST /api/notes`, the variant bundled in `src/lib/db/local-db.ts`
that also reads `id` and `updatedAt` from the body: `id || undefined`
lets the column default mint `freshId`, and the insert is a plain
`db.insert` — a row whose id already exists raises a unique violation,
caught as the 500 payload, leaving the table unchanged. -/
def POSTnotesWithId (dbFail : Bool) (reqId : Option String)
    (title content : Option String) (updatedAt : Option Nat)
    (freshId : String) (now : Nat) (s : List Note) : Response × List Note :=
  if dbFail then (jsonError "Failed to create note" 500, s)
  else
    let theId : String :=
      match reqId with
      | none => freshId
      | some i => if i = "" then freshId else i
    let n : Note := ⟨theId, jsOrStr title "Untitled", jsOrStr content "",
                     now, jsOrNat updatedAt now⟩
    if s.any (fun m => m.id == theId) then (jsonError "Failed to create note" 500, s)
    else (⟨200, .note n⟩, s ++ [n])

/-- `GET /api/notes/[id]`: select rows with that id; empty result is the
404 `Note not found` payload, otherwise the first row is returned. -/
def noteGET (dbFail : Bool) (id : String) (s : List Note) : Response × List Note :=
  if dbFail then (jsonError "Failed to fetch note" 500, s)
  else
    match s.find? (fun n => n.id == id) with
    | none => (jsonError "Note not found" 404, s)
    | some n => (⟨200, .note n⟩, s)

/-- The `SET title, content, updated_at = now()` applied by the update. -/
def updateFields (title content : String) (now : Nat) (n : Note) : Note :=
  { n with title := title, content := content, updatedAt := now }

/-- `PUT /api/notes/[id]`: update title, content and `updatedAt` on every
row with that id; if the `returning()` set is empty answer 404, else
return the first updated row. -/
def notePUT (dbFail : Bool) (id : String) (title content : String)
    (now : Nat) (s : List Note) : Response × List Note :=
  if dbFail then (jsonError "Failed to update note" 500, s)
  else
    let s' := s.map (fun n => if n.id == id then updateFields title content now n else n)
    match s'.filter (fun n => n.id == id) with
    | [] => (jsonError "Note not found" 404, s')
    | n :: _ => (⟨200, .note n⟩, s')

/-- `DELETE /api/notes/[id]`: delete every row with that id; if the
`returning()` set is empty answer 404, else the success message. -/
def noteDELETE (dbFail : Bool) (id : String) (s : List Note) : Response × List Note :=
  if dbFail then (jsonError "Failed to delete note" 500, s)
  else
    let deleted := s.filter (fun n => n.id == id)
    let s' := s.filter (fun n => !(n.id == id))
    match deleted with
    | [] => (jsonError "Note not found" 404, s')
    | _ :: _ => (⟨200, .okMsg "Note deleted successfully"⟩, s')

/-- Outcome of a client-side handler: either a value, or an error that
was caught and logged inside the handler (never rethrown). -/
inductive ClientResult (α : Type) where
  | ok (a : α)
  | logged (msg : String)
deriving DecidableEq, Repr

/-- The JSON body `saveNote` sends with its PUT:
`{ title: noteTitle || 'Untitled', content: noteContent }`. -/
def saveRequestBody (noteTitle noteContent : String) : String × String :=
  (jsOrStr (some noteTitle) "Untitled", noteContent)

/-- `saveNote` in `src/app/page.tsx`: PUT the buffered title and content
of the note; a thrown fetch failure is caught and logged. -/
def saveNote (netFail dbFail : Bool) (noteId noteTitle noteContent : String)
    (now : Nat) (s : List Note) : ClientResult (Response × List Note) :=
  if netFail then .logged "Failed to save note"
  else
    let body := saveRequestBody noteTitle noteContent
    .ok (notePUT dbFail noteId body.1 body.2 now s)

/-- `handleDelete` in `src/app/page.tsx`: fire the DELETE, ignore its
response, and drop the note from the client's list; only a thrown fetch
failure (not a 404 response) skips the list update. Result: the server
store after the DELETE and the client's note list. -/
def handleDelete (noteToDelete : Option String) (netFail : Bool)
    (serverStore localNotes : List Note) : List Note × List Note :=
  match noteToDelete with
  | none => (serverStore, localNotes)
  | some nid =>
    if netFail then (serverStore, localNotes)
    else
      ((noteDELETE false nid serverStore).2,
       localNotes.filter (fun n => !(n.id == nid)))

/-- One call to `debouncedSave`: arrival time and the buffered fields. -/
structure Edit where
  t : Nat
  title : String
  content : String
deriving DecidableEq, Repr

/-- The `setTimeout` delay of `debouncedSave` (1000 ms). -/
def debounceWindow : Nat := 1000

/-- A save request as issued by the debounced `saveNote` call. -/
structure SaveReq where
  noteId : String
  title : String
  content : String
deriving DecidableEq, Repr

/-- The request the timer callback `saveNote(noteId, noteTitle,
noteContent)` issues for a buffered edit. -/
def saveReqOf (noteId : String) (e : Edit) : SaveReq :=
  ⟨noteId, jsOrStr (some e.title) "Untitled", e.content⟩

/-- Timer semantics of `debouncedSave`: the pending timer armed by `cur`
fires at `cur.t + debounceWindow` unless a later call arrives strictly
before that and clears it. Returns the edits whose timer fired, in
order; after the quiet period the final pending timer always fires. -/
def debounceFired (cur : Edit) : List Edit → List Edit
  | [] => [cur]
  | e :: rest =>
    if cur.t + debounceWindow ≤ e.t then cur :: debounceFired e rest
    else debounceFired e rest

/-- The save requests performed by a sequence of `debouncedSave` calls
followed by a quiet period. -/
def debounceRun (noteId : String) : List Edit → List SaveReq
  | [] => []
  | e :: rest => (debounceFired e rest).map (saveReqOf noteId)

/-- Local Dexie record of `src/lib/db/local-db.ts`: `synced = true`
(source `1`) is Clean, `false` is Dirty; `isDeleted = true` (source `1`)
is Tombstoned, `false` is Active. -/
structure LocalNote where
  id : String
  title : String
  content : String
  createdAt : Nat
  updatedAt : Nat
  synced : Bool
  isDeleted : Bool
deriving DecidableEq, Repr

/-- The local store keyed by id (Dexie table, primary key `id`). -/
abbrev LocalStore := String → Option LocalNote

/-- A remote record written back into the local store by the pull phase:
title, content and timestamps from the remote version, Clean and Active. -/
def localOfRemote (r : Note) : LocalNote :=
  ⟨r.id, r.title, r.content, r.createdAt, r.updatedAt, true, false⟩

/-- Modelled from the spec: the reconciler's pull-phase merge (spec
§4.3) is not under `src/` — only the `LocalNote` declaration is — so the
rule follows the spec's words: overwrite from the remote record only
when no local record with that id exists, or the local record is Active,
Clean, and strictly older than the remote; a Dirty or Tombstoned local
record is left untouched. -/
def pullMergeOne (st : LocalStore) (r : Note) : LocalStore :=
  fun i =>
    if i = r.id then
      match st r.id with
      | none => some (localOfRemote r)
      | some l =>
        if l.synced = true ∧ l.isDeleted = false ∧ l.updatedAt < r.updatedAt then
          some (localOfRemote r)
        else some l
    else st i

/-- Modelled from the spec: the pull phase applies the merge rule to
every record returned by `listAll()`. -/
def pullPhase (st : LocalStore) (remotes : List Note) : LocalStore :=
  remotes.foldl pullMergeOne st

/-- Modelled from the spec: the upsert semantics §6 requires of the
create operation when a client-supplied identifier is present — replace
the fields of an existing record with that id, insert otherwise, and
acknowledge with the stored row. Stated only to be compared with
`POSTnotesWithId`, the operation the source implements. -/
def postUpsertSpec (reqId : String) (title content : Option String)
    (updatedAt : Option Nat) (now : Nat) (s : List Note) : Response × List Note :=
  let n : Note := ⟨reqId, jsOrStr title "Untitled", jsOrStr content "",
                   now, jsOrNat updatedAt now⟩
  if s.any (fun m => m.id == reqId) then
    (⟨200, .note n⟩,
     s.map (fun m => if m.id == reqId then
       { m with title := n.title, content := n.content, updatedAt := n.updatedAt }
     else m))
  else (⟨200, .note n⟩, s ++ [n])

/-! ## Helper lemmas -/

/-- Whatever the `returning()` set, the store after a PUT is the map that
rewrites every row with the given id. -/
theorem notePUT_store (i t c : String) (now : Nat) (s : List Note) :
    (notePUT false i t c now s).2 =
      s.map (fun n => if n.id == i then updateFields t c now n else n) := by
  unfold notePUT
  cases hret : (s.map (fun n => if n.id == i then updateFields t c now n else n)).filter
      (fun n => n.id == i) with
  | nil => simp only [hret, Bool.false_eq_true, if_false]
  | cons x xs => simp only [hret, Bool.false_eq_true, if_false]

/-- Whatever the `returning()` set, the store after a DELETE is the store
without the rows of the given id. -/
theorem noteDELETE_store (i : String) (s : List Note) :
    (noteDELETE false i s).2 = s.filter (fun n => !(n.id == i)) := by
  unfold noteDELETE
  cases hdel : s.filter (fun n => n.id == i) with
  | nil => simp [hdel]
  | cons x xs => simp [hdel]

/-! ## Concrete demonstration data -/

/-- A Dirty, Active local record. -/
def dirtyDemo : LocalNote :=
  ⟨"a", "local title", "local content", 1, 5, false, false⟩

/-- A Clean, Active local record with `updatedAt = 5`. -/
def cleanDemo : LocalNote :=
  ⟨"a", "old title", "old content", 1, 5, true, false⟩

/-- A remote record for the same id with a newer `updatedAt`. -/
def newerRemote : Note := ⟨"a", "remote title", "remote content", 1, 99⟩

/-- A local store holding exactly `dirtyDemo`. -/
def dirtyStore : LocalStore := fun i => if i = "a" then some dirtyDemo else none

/-- A local store holding exactly `cleanDemo`. -/
def cleanStore : LocalStore := fun i => if i = "a" then some cleanDemo else none

/-! ## Claims -/

/-- C1: for every record whose local syncState is Dirty (`synced = false`),
a reconciliation pull phase never changes that record — in particular its
title and content — whatever remote versions (older, equal or newer
`updatedAt`) the phase returns for the same id. -/
theorem pull_never_overwrites_dirty (st : LocalStore) (remotes : List Note)
    (i : String) (l : LocalNote) (hl : st i = some l)
    (hdirty : l.synced = false) :
    pullPhase st remotes i = some l := by
  induction remotes generalizing st with
  | nil => simpa [pullPhase] using hl
  | cons r rs ih =>
    have hstep : pullMergeOne st r i = some l := by
      unfold pullMergeOne
      by_cases hir : i = r.id
      · subst hir
        simp [hl, hdirty]
      · simp [hir, hl]
    have hrest : pullPhase (pullMergeOne st r) rs i = some l := ih _ hstep
    simpa [pullPhase] using hrest

/-- Witness for C1: the pull of a strictly newer remote version leaves
the Dirty record untouched. -/
theorem pull_never_overwrites_dirty_witness :
    dirtyStore "a" = some dirtyDemo ∧ dirtyDemo.synced = false ∧
    pullPhase dirtyStore [newerRemote] "a" = some dirtyDemo :=
  ⟨by decide, by decide,
   pull_never_overwrites_dirty dirtyStore [newerRemote] "a" dirtyDemo
     (by decide) (by decide)⟩

/-- C2: when the local record with the remote record's id is Active,
Clean and strictly older than the remote version — or missing entirely —
the pull phase overwrites it with the remote title, content and
timestamps, Clean and Active. -/
theorem pull_overwrites_clean_older (st : LocalStore) (r : Note)
    (h : st r.id = none ∨
      ∃ l, st r.id = some l ∧ l.isDeleted = false ∧ l.synced = true ∧
        l.updatedAt < r.updatedAt) :
    pullPhase st [r] r.id =
      some ⟨r.id, r.title, r.content, r.createdAt, r.updatedAt, true, false⟩ := by
  simp only [pullPhase, List.foldl_cons, List.foldl_nil]
  unfold pullMergeOne
  rcases h with h | ⟨l, hl, hact, hcl, hlt⟩
  · simp [h, localOfRemote]
  · simp [hl, hact, hcl, hlt, localOfRemote]

/-- Witness for C2: a Clean Active record with `updatedAt = 5` is
overwritten by the remote version with `updatedAt = 99`. -/
theorem pull_overwrites_clean_older_witness :
    (cleanStore newerRemote.id = some cleanDemo ∧ cleanDemo.isDeleted = false ∧
      cleanDemo.synced = true ∧ cleanDemo.updatedAt < newerRemote.updatedAt) ∧
    pullPhase cleanStore [newerRemote] newerRemote.id =
      some ⟨newerRemote.id, newerRemote.title, newerRemote.content,
        newerRemote.createdAt, newerRemote.updatedAt, true, false⟩ :=
  ⟨⟨by decide, by decide, by decide, by decide⟩,
   pull_overwrites_clean_older cleanStore newerRemote
     (Or.inr ⟨cleanDemo, by decide, by decide, by decide, by decide⟩)⟩

/-- C7: every injected internal failure is answered with the handler's
JSON error payload (or, for the client's `saveNote`, caught and logged),
never rethrown; each operation is a total function, so it always returns
a value. -/
theorem failures_reported_not_raised :
    (∀ s : List Note, notesGETall true s = jsonError "Failed to fetch notes" 500) ∧
    (∀ t c fid now s, POSTnotes true t c fid now s =
      (jsonError "Failed to create note" 500, s)) ∧
    (∀ rid t c u fid now s, POSTnotesWithId true rid t c u fid now s =
      (jsonError "Failed to create note" 500, s)) ∧
    (∀ i s, noteGET true i s = (jsonError "Failed to fetch note" 500, s)) ∧
    (∀ i t c now s, notePUT true i t c now s =
      (jsonError "Failed to update note" 500, s)) ∧
    (∀ i s, noteDELETE true i s = (jsonError "Failed to delete note" 500, s)) ∧
    (∀ dbF nid t c now s, saveNote true dbF nid t c now s =
      .logged "Failed to save note") :=
  ⟨fun _ => rfl, fun _ _ _ _ _ => rfl, fun _ _ _ _ _ _ _ => rfl,
   fun _ _ => rfl, fun _ _ _ _ _ => rfl, fun _ _ => rfl,
   fun _ _ _ _ _ _ => rfl⟩

/-- C9: the list-all operation succeeds with the full set of stored
records (a permutation of the store) sorted by `updatedAt` in descending
order. -/
theorem listAll_sorted_desc (s : List Note) :
    ∃ out, notesGETall false s = ⟨200, Body.notesList out⟩ ∧
      List.Perm out s ∧ List.Sorted byUpdatedDesc out :=
  ⟨List.insertionSort byUpdatedDesc s, rfl,
   List.perm_insertionSort byUpdatedDesc s,
   List.sorted_insertionSort byUpdatedDesc s⟩

/-- C5: deleting an id absent from the remote store answers the 404
`Note not found` payload but leaves the store unchanged (absence already
holds), and the client's `handleDelete` — which never reads the response
— produces the same end state as after a successful delete of an
existing record: the id filtered out of both the remote store and the
local list. -/
theorem delete_notFound_is_success (i : String) (s l : List Note)
    (habs : ∀ m ∈ s, m.id ≠ i) :
    (noteDELETE false i s).1 = jsonError "Note not found" 404 ∧
    (noteDELETE false i s).2 = s ∧
    (∀ s2 l2 : List Note, handleDelete (some i) false s2 l2 =
      (s2.filter (fun n => !(n.id == i)), l2.filter (fun n => !(n.id == i)))) ∧
    handleDelete (some i) false s l = (s, l.filter (fun n => !(n.id == i))) := by
  have hdel : s.filter (fun n => n.id == i) = [] := by
    rw [List.filter_eq_nil_iff]
    intro m hm
    simp [habs m hm]
  have hkeep : s.filter (fun n => !(n.id == i)) = s := by
    rw [List.filter_eq_self]
    intro m hm
    simp [habs m hm]
  have hall : ∀ s2 l2 : List Note, handleDelete (some i) false s2 l2 =
      (s2.filter (fun n => !(n.id == i)), l2.filter (fun n => !(n.id == i))) := by
    intro s2 l2
    simp only [handleDelete, Bool.false_eq_true, if_false, noteDELETE_store]
  refine ⟨?_, ?_, hall, ?_⟩
  · simp only [noteDELETE, hdel, Bool.false_eq_true, if_false]
  · rw [noteDELETE_store, hkeep]
  · rw [hall s l, hkeep]

/-- Witness for C5: deleting `"b"` from a store holding only id `"a"`. -/
theorem delete_notFound_is_success_witness :
    (∀ m ∈ [(⟨"a", "t", "c", 1, 5⟩ : Note)], m.id ≠ "b") ∧
    (noteDELETE false "b" [(⟨"a", "t", "c", 1, 5⟩ : Note)]).1 =
      jsonError "Note not found" 404 ∧
    handleDelete (some "b") false [(⟨"a", "t", "c", 1, 5⟩ : Note)]
        [(⟨"a", "t", "c", 1, 5⟩ : Note)] =
      ([(⟨"a", "t", "c", 1, 5⟩ : Note)], [(⟨"a", "t", "c", 1, 5⟩ : Note)]) := by
  have habs : ∀ m ∈ [(⟨"a", "t", "c", 1, 5⟩ : Note)], m.id ≠ "b" := by decide
  obtain ⟨h1, _, _, h4⟩ :=
    delete_notFound_is_success "b" [(⟨"a", "t", "c", 1, 5⟩ : Note)]
      [(⟨"a", "t", "c", 1, 5⟩ : Note)] habs
  refine ⟨habs, h1, ?_⟩
  rw [h4]
  decide

/-- C6: updating an existing record stores its image with `updatedAt`
refreshed to the current time, `id` and `createdAt` (the only fields
besides title, content and `updatedAt`) unchanged, and title and content
set to the request's values; records with other ids are untouched. -/
theorem update_refreshes_updatedAt_only (i t c : String) (now : Nat)
    (s : List Note) (r : Note) (hr : r ∈ s) (hid : r.id = i) :
    updateFields t c now r ∈ (notePUT false i t c now s).2 ∧
    (updateFields t c now r).id = r.id ∧
    (updateFields t c now r).createdAt = r.createdAt ∧
    (updateFields t c now r).updatedAt = now ∧
    (updateFields t c now r).title = t ∧
    (updateFields t c now r).content = c ∧
    (∀ q ∈ s, q.id ≠ i → q ∈ (notePUT false i t c now s).2) := by
  rw [notePUT_store]
  refine ⟨?_, rfl, rfl, rfl, rfl, rfl, ?_⟩
  · have := List.mem_map_of_mem
      (fun n => if n.id == i then updateFields t c now n else n) hr
    simpa [hid] using this
  · intro q hq hqi
    have := List.mem_map_of_mem
      (fun n => if n.id == i then updateFields t c now n else n) hq
    simpa [hqi] using this

/-- Witness for C6: updating the sole record of a one-row store. -/
theorem update_refreshes_updatedAt_only_witness :
    ((⟨"a", "t", "c", 1, 5⟩ : Note) ∈ [(⟨"a", "t", "c", 1, 5⟩ : Note)] ∧
      (⟨"a", "t", "c", 1, 5⟩ : Note).id = "a") ∧
    updateFields "t2" "c2" 9 ⟨"a", "t", "c", 1, 5⟩ ∈
      (notePUT false "a" "t2" "c2" 9 [(⟨"a", "t", "c", 1, 5⟩ : Note)]).2 :=
  ⟨⟨by decide, by decide⟩,
   (update_refreshes_updatedAt_only "a" "t2" "c2" 9
     [(⟨"a", "t", "c", 1, 5⟩ : Note)] ⟨"a", "t", "c", 1, 5⟩
     (by decide) (by decide)).1⟩

/-- C8: for an id absent from the store, the single-record GET, PUT and
DELETE each answer the 404 `Note not found` payload and leave the store
exactly as it was. -/
theorem notFound_leaves_store_unchanged (i t c : String) (now : Nat)
    (s : List Note) (habs : ∀ m ∈ s, m.id ≠ i) :
    noteGET false i s = (jsonError "Note not found" 404, s) ∧
    notePUT false i t c now s = (jsonError "Note not found" 404, s) ∧
    noteDELETE false i s = (jsonError "Note not found" 404, s) := by
  have hmapid : s.map (fun n => if n.id == i then updateFields t c now n else n) = s := by
    have : ∀ n ∈ s, (if n.id == i then updateFields t c now n else n) = n := by
      intro n hn
      simp [habs n hn]
    simpa using List.map_congr_left this
  have hdel : s.filter (fun n => n.id == i) = [] := by
    rw [List.filter_eq_nil_iff]
    intro m hm
    simp [habs m hm]
  have hkeep : s.filter (fun n => !(n.id == i)) = s := by
    rw [List.filter_eq_self]
    intro m hm
    simp [habs m hm]
  have hfind : s.find? (fun n => n.id == i) = none := by
    rw [List.find?_eq_none]
    intro m hm
    simp [habs m hm]
  refine ⟨?_, ?_, ?_⟩
  · simp only [noteGET, hfind, Bool.false_eq_true, if_false]
  · simp only [notePUT, Bool.false_eq_true, if_false, hmapid, hdel]
  · simp only [noteDELETE, Bool.false_eq_true, if_false, hdel, hkeep]

/-- Witness for C8: id `"b"` against a store holding only id `"a"`. -/
theorem notFound_leaves_store_unchanged_witness :
    (∀ m ∈ [(⟨"a", "t", "c", 1, 5⟩ : Note)], m.id ≠ "b") ∧
    noteGET false "b" [(⟨"a", "t", "c", 1, 5⟩ : Note)] =
      (jsonError "Note not found" 404, [(⟨"a", "t", "c", 1, 5⟩ : Note)]) :=
  ⟨by decide,
   (notFound_leaves_store_unchanged "b" "x" "y" 9
     [(⟨"a", "t", "c", 1, 5⟩ : Note)] (by decide)).1⟩

/-- C10: a create stores `title || 'Untitled'` and `content || ''` — so
a missing or empty title is stored as `Untitled`, a missing content as
the empty string, the stored title is never empty — and the debounced
save substitutes `Untitled` for an empty title in its PUT body; with the
schema's NOT NULL columns every persisted record thus has a title and a
content. -/
theorem persisted_title_content_defaults (c : Option String) (fid : String)
    (now : Nat) (s : List Note) (c2 : String)
    (hfresh : ∀ m ∈ s, m.id ≠ fid) :
    (∀ t, (POSTnotes false t c fid now s).2 =
      s ++ [⟨fid, jsOrStr t "Untitled", jsOrStr c "", now, now⟩]) ∧
    jsOrStr none "Untitled" = "Untitled" ∧
    jsOrStr (some "") "Untitled" = "Untitled" ∧
    jsOrStr none "" = "" ∧
    (∀ t, jsOrStr t "Untitled" ≠ "") ∧
    saveRequestBody "" c2 = ("Untitled", c2) := by
  have hany : s.any (fun m => m.id == fid) = false := by
    rw [List.any_eq_false]
    intro m hm
    simp [hfresh m hm]
  refine ⟨?_, rfl, rfl, rfl, ?_, rfl⟩
  · intro t
    simp only [POSTnotes, Bool.false_eq_true, if_false, hany]
  · intro t
    cases t with
    | none => decide
    | some v =>
      by_cases hv : v = ""
      · subst hv
        decide
      · simp [jsOrStr, hv]

/-- Witness for C10: a create with an empty title and missing content on
an empty store persists `Untitled` and the empty content. -/
theorem persisted_title_content_defaults_witness :
    (∀ m ∈ ([] : List Note), m.id ≠ "f") ∧
    (POSTnotes false (some "") none "f" 3 []).2 =
      [⟨"f", jsOrStr (some "") "Untitled", jsOrStr none "", 3, 3⟩] :=
  ⟨by decide,
   (persisted_title_content_defaults none "f" 3 [] "zz" (by decide)).1 (some "")⟩

/-- If every debounce call arrives strictly before the pending timer's
deadline, no intermediate timer fires: only the final pending edit does. -/
theorem debounceFired_chain (e : Edit) (edits : List Edit)
    (h : List.Chain (fun a b => b.t < a.t + debounceWindow) e edits) :
    debounceFired e edits = [(e :: edits).getLast (List.cons_ne_nil e edits)] := by
  induction edits generalizing e with
  | nil => rfl
  | cons x xs ih =>
    obtain ⟨hx, hxs⟩ := List.chain_cons.mp h
    have hstep : debounceFired e (x :: xs) = debounceFired x xs := by
      have hunf : debounceFired e (x :: xs) =
          if e.t + debounceWindow ≤ x.t then e :: debounceFired x xs
          else debounceFired x xs := rfl
      rw [hunf, if_neg (Nat.not_le.mpr hx)]
    rw [hstep, ih x hxs]
    rfl

/-- C3 counterexample: the create operation of the source is not an
upsert. Retrying the identical not-yet-acknowledged create (same
client id `"a"`, same fields) is rejected with the `Failed to create
note` 500 payload — the plain insert raises a unique violation — while
the upsert the spec demands would acknowledge it with status 200. -/
theorem create_not_upsert_cex :
    POSTnotesWithId false (some "a") (some "t") (some "c") (some 5) "f" 1 [] =
      (⟨200, Body.note ⟨"a", "t", "c", 1, 5⟩⟩, [⟨"a", "t", "c", 1, 5⟩]) ∧
    POSTnotesWithId false (some "a") (some "t") (some "c") (some 5) "g" 2
        [⟨"a", "t", "c", 1, 5⟩] =
      (jsonError "Failed to create note" 500, [⟨"a", "t", "c", 1, 5⟩]) ∧
    (postUpsertSpec "a" (some "t") (some "c") (some 5) 2
        [⟨"a", "t", "c", 1, 5⟩]).1.status = 200 :=
  ⟨rfl, rfl, rfl⟩

/-- C3 as amended: the create with a client-supplied id is a plain
insert keyed by that id, not an upsert — the retried request fails with
the 500 error payload and changes nothing — so submitting the same
not-yet-acknowledged record twice still leaves exactly one remote
record with that id, holding the submitted fields. -/
theorem create_insert_retry_keeps_one (i : String) (t c : Option String)
    (u : Option Nat) (f g : String) (n1 n2 : Nat) (s : List Note)
    (hi : i ≠ "") (habs : ∀ m ∈ s, m.id ≠ i) :
    POSTnotesWithId false (some i) t c u g n2
        (POSTnotesWithId false (some i) t c u f n1 s).2 =
      (jsonError "Failed to create note" 500,
        (POSTnotesWithId false (some i) t c u f n1 s).2) ∧
    ((POSTnotesWithId false (some i) t c u f n1 s).2.filter
        (fun m => m.id == i)) =
      [⟨i, jsOrStr t "Untitled", jsOrStr c "", n1, jsOrNat u n1⟩] := by
  have hany : s.any (fun m => m.id == i) = false := by
    rw [List.any_eq_false]
    intro m hm
    simp [habs m hm]
  have hfirst : (POSTnotesWithId false (some i) t c u f n1 s).2 =
      s ++ [⟨i, jsOrStr t "Untitled", jsOrStr c "", n1, jsOrNat u n1⟩] := by
    simp only [POSTnotesWithId, Bool.false_eq_true, if_false, hi, hany]
  have hany2 : (s ++ [(⟨i, jsOrStr t "Untitled", jsOrStr c "", n1,
      jsOrNat u n1⟩ : Note)]).any (fun m => m.id == i) = true := by
    simp [List.any_append]
  have hfilter : s.filter (fun m => m.id == i) = [] := by
    rw [List.filter_eq_nil_iff]
    intro m hm
    simp [habs m hm]
  constructor
  · rw [hfirst]
    simp only [POSTnotesWithId, Bool.false_eq_true, if_false, hi, hany2, if_true]
  · rw [hfirst, List.filter_append, hfilter]
    simp

/-- Witness for the amended C3: a first create of id `"a"` on the empty
store followed by the facts the theorem yields for it. -/
theorem create_insert_retry_keeps_one_witness :
    (("a" : String) ≠ "" ∧ (∀ m ∈ ([] : List Note), m.id ≠ "a")) ∧
    ((POSTnotesWithId false (some "a") (some "t") (some "c") (some 5) "f" 1 []).2.filter
        (fun m => m.id == "a")) =
      [⟨"a", jsOrStr (some "t") "Untitled", jsOrStr (some "c") "", 1,
        jsOrNat (some 5) 1⟩] :=
  ⟨⟨by decide, by decide⟩,
   (create_insert_retry_keeps_one "a" (some "t") (some "c") (some 5) "f" "g" 1 2 []
     (by decide) (by decide)).2⟩

/-- C4 counterexample: a single debounced edit whose buffered title is
empty produces a save request whose title is `Untitled`, not the title
of the final edit — `saveNote` substitutes `Untitled` for an empty
title. -/
theorem debounce_empty_title_cex :
    debounceRun "a" [⟨0, "", "x"⟩] = [⟨"a", "Untitled", "x"⟩] ∧
    (⟨0, "", "x"⟩ : Edit).title = "" ∧ ("Untitled" : String) ≠ "" :=
  ⟨rfl, rfl, by decide⟩

/-- C4 as amended: when each of N ≥ 1 edits arrives strictly less than
the debounce window after the previous one, exactly one save request is
performed after the quiet period, carrying the content of the final
edit and its title with an empty title replaced by `Untitled`
(`saveReqOf` is exactly the request the timer callback issues). -/
theorem debounce_single_save_final_edit (noteId : String) (e : Edit)
    (edits : List Edit)
    (hchain : List.Chain (fun a b => b.t < a.t + debounceWindow) e edits) :
    debounceRun noteId (e :: edits) =
      [saveReqOf noteId ((e :: edits).getLast (List.cons_ne_nil e edits))] := by
  have hdef : debounceRun noteId (e :: edits) =
      (debounceFired e edits).map (saveReqOf noteId) := rfl
  rw [hdef, debounceFired_chain e edits hchain]
  rfl

/-- Witness for the amended C4: two edits 500 ms apart produce the one
save request of the second edit. -/
theorem debounce_single_save_final_edit_witness :
    List.Chain (fun a b : Edit => b.t < a.t + debounceWindow)
      (⟨0, "T", "C1"⟩ : Edit) [(⟨500, "T2", "C2"⟩ : Edit)] ∧
    debounceRun "n" [⟨0, "T", "C1"⟩, ⟨500, "T2", "C2"⟩] = [⟨"n", "T2", "C2"⟩] := by
  have hc : List.Chain (fun a b : Edit => b.t < a.t + debounceWindow)
      (⟨0, "T", "C1"⟩ : Edit) [(⟨500, "T2", "C2"⟩ : Edit)] :=
    List.Chain.cons (by decide) List.Chain.nil
  refine ⟨hc, ?_⟩
  rw [debounce_single_save_final_edit "n" ⟨0, "T", "C1"⟩ [⟨500, "T2", "C2"⟩] hc]
  rfl

end EdNotes
